import Mathlib

/-!
Shallow embedding of `src/rust/src/api/relay.rs` (nostr-rust-flutter-plugin).

Strings are Lean `String`s; line-oriented operations are modelled on the
underlying character list (`String.data`), mirroring Rust's `str::lines`,
`slice::join("\n")` and `format!`.  Global mutable statics are gathered in
a `GlobalState` record; fallible external operations (filesystem, database,
socket bind, tokio runtime construction) are modelled by an `Env` record of
`Option String` outcomes (`none` = success, `some e` = failure with message
`e`), so each modelled function is a pure state transformer.
-/

set_option maxRecDepth 100000

deriving instance DecidableEq for Except

namespace Relay

/-- Splits a character list at every occurrence of `sep` (the separator is
dropped).  Models `str::split` for a one-character pattern; always returns at
least one (possibly empty) part. -/
def splitOnChar (sep : Char) : List Char → List (List Char)
  | [] => [[]]
  | c :: cs =>
    if c = sep then
      [] :: splitOnChar sep cs
    else
      match splitOnChar sep cs with
      | [] => [[c]]
      | p :: ps => (c :: p) :: ps

/-- Joins parts with a single `'\n'` between them.  Models
`Vec::<&str>::join("\n")`. -/
def joinNl : List (List Char) → List Char
  | [] => []
  | [l] => l
  | l :: ls => l ++ '\n' :: joinNl ls

/-- Removes one trailing carriage return, as `str::lines` does for the
`"\r\n"` line ending. -/
def stripCr (l : List Char) : List Char :=
  if l.getLast? = some '\r' then l.dropLast else l

/-- Post-processes the raw `'\n'`-split parts the way Rust's `str::lines`
does: a final empty part (from a trailing newline) yields no line, every
part that was followed by a newline has a trailing `'\r'` stripped, and the
last part (not followed by a newline) is kept verbatim. -/
def linesList : List (List Char) → List (List Char)
  | [] => []
  | [last] => if last = [] then [] else [last]
  | p :: q :: rest => stripCr p :: linesList (q :: rest)

/-- Models Rust's `str::lines` (used as `content.lines()` in `relay.rs`). -/
def strLines (s : String) : List (List Char) :=
  linesList (splitOnChar '\n' s.data)

/-- The character for a decimal digit `d < 10`. -/
def decDigit (d : Nat) : Char := Char.ofNat (48 + d)

/-- Fuel-driven digit accumulator; the fuel only guides structural recursion
and is always sufficient when it exceeds the number being rendered. -/
def natDecCharsAux : Nat → Nat → List Char
  | 0, _ => []
  | fuel + 1, n =>
    if n < 10 then [decDigit n]
    else natDecCharsAux fuel (n / 10) ++ [decDigit (n % 10)]

/-- Decimal digit characters of `n`, most significant first.  Models Rust's
`Display` for unsigned integers (as used by `format!("{}", port)`). -/
def natDecChars (n : Nat) : List Char := natDecCharsAux (n + 1) n

/-- Decimal rendering of `n` as a string. -/
def natDecRepr (n : Nat) : String := String.mk (natDecChars n)

/-- `listStarts pat s` holds when `pat` is an initial segment of `s`. -/
def listStarts : List Char → List Char → Bool
  | [], _ => true
  | _ :: _, [] => false
  | a :: as, b :: bs => a == b && listStarts as bs

/-- `containsSub pat s` holds when `pat` occurs contiguously inside `s`. -/
def containsSub (pat : List Char) : List Char → Bool
  | [] => pat.isEmpty
  | c :: t => listStarts pat (c :: t) || containsSub pat t

/-- `strContains s pat`: `pat` occurs as a contiguous substring of `s`.
Models `str::contains` on the modelled strings. -/
def strContains (s pat : String) : Bool := containsSub pat.data s.data

/-- Models `std::net::IpAddr`: either four IPv4 octets or eight IPv6
16-bit groups. -/
inductive IpAddr where
  | v4 (a b c d : Nat)
  | v6 (g1 g2 g3 g4 g5 g6 g7 g8 : Nat)
deriving DecidableEq

/-- Decimal value of a digit list. -/
def decVal (g : List Char) : Nat :=
  g.foldl (fun a c => a * 10 + (c.toNat - 48)) 0

/-- Hexadecimal digit test (`0-9a-fA-F`). -/
def isHexDigitChar (c : Char) : Bool :=
  c.isDigit || ('a' ≤ c && c ≤ 'f') || ('A' ≤ c && c ≤ 'F')

/-- Hexadecimal value of one digit character. -/
def hexDigitVal (c : Char) : Nat :=
  if c.isDigit then c.toNat - 48
  else if 'a' ≤ c && c ≤ 'f' then c.toNat - 87
  else c.toNat - 55

/-- Hexadecimal value of a digit list. -/
def hexVal (g : List Char) : Nat :=
  g.foldl (fun a c => a * 16 + hexDigitVal c) 0

/-- One dotted-decimal IPv4 octet: nonempty, all digits, no leading zero,
value at most 255.  Models the octet rule of `std`'s IPv4 parser. -/
def parseDecOctet (g : List Char) : Option Nat :=
  if g ≠ [] && g.all Char.isDigit && (g.length = 1 || g.headI ≠ '0')
      && decVal g ≤ 255 then
    some (decVal g)
  else none

/-- Models `std`'s IPv4 literal parser: exactly four dot-separated octets. -/
def parseV4 (s : String) : Option IpAddr :=
  match (splitOnChar '.' s.data).mapM parseDecOctet with
  | some [a, b, c, d] => some (.v4 a b c d)
  | _ => none

/-- One IPv6 hextet: one to four hexadecimal digits. -/
def parseHexGroup (g : List Char) : Option Nat :=
  if g ≠ [] && g.length ≤ 4 && g.all isHexDigitChar then some (hexVal g)
  else none

/-- Splits at the first `"::"`, if any. -/
def splitDoubleColon : List Char → Option (List Char × List Char)
  | ':' :: ':' :: rest => some ([], rest)
  | c :: rest => (splitDoubleColon rest).map (fun p => (c :: p.1, p.2))
  | [] => none

/-- Whether `"::"` occurs in the list. -/
def hasDoubleColon : List Char → Bool
  | ':' :: ':' :: _ => true
  | _ :: rest => hasDoubleColon rest
  | [] => false

/-- Packs exactly eight groups into an address. -/
def mkV6 : List Nat → Option IpAddr
  | [a, b, c, d, e, f, g, h] => some (.v6 a b c d e f g h)
  | _ => none

/-- Models `std`'s IPv6 literal parser, restricted to hexadecimal-group
forms (with at most one `"::"` compression standing for one or more zero
groups).  The embedded-IPv4 tail form (`"::ffff:1.2.3.4"`) is not modelled;
no code path of this repository produces it. -/
def parseV6 (s : String) : Option IpAddr :=
  let cs := s.data
  match splitDoubleColon cs with
  | none =>
    match (splitOnChar ':' cs).mapM parseHexGroup with
    | some gs => mkV6 gs
    | none => none
  | some (a, b) =>
    if hasDoubleColon b then none
    else
      let ga := if a = [] then some [] else (splitOnChar ':' a).mapM parseHexGroup
      let gb := if b = [] then some [] else (splitOnChar ':' b).mapM parseHexGroup
      match ga, gb with
      | some ga, some gb =>
        if ga.length + gb.length ≤ 7 then
          mkV6 (ga ++ List.replicate (8 - ga.length - gb.length) 0 ++ gb)
        else none
      | _, _ => none

/-- Models `host.parse::<IpAddr>()`: IPv6 when a colon occurs, IPv4
otherwise. -/
def parseIp (s : String) : Option IpAddr :=
  if s.data.contains ':' then parseV6 s else parseV4 s

/-- Fuel-driven hexadecimal digit accumulator (lowercase), mirroring
`natDecCharsAux`. -/
def natHexCharsAux : Nat → Nat → List Char
  | 0, _ => []
  | fuel + 1, n =>
    if n < 16 then [hexDigitChar n]
    else natHexCharsAux fuel (n / 16) ++ [hexDigitChar (n % 16)]
where
  /-- Character of a hexadecimal digit `d < 16` (lowercase). -/
  hexDigitChar (d : Nat) : Char :=
    if d < 10 then Char.ofNat (48 + d) else Char.ofNat (87 + d)

/-- Lowercase hexadecimal rendering of `n`. -/
def natHexRepr (n : Nat) : String := String.mk (natHexCharsAux (n + 1) n)

/-- Models the `Display` rendering of `std::net::IpAddr` as used by
`addr.to_string()`: dotted decimal for IPv4; for IPv6, `"::"` for the
all-zero (wildcard) address and otherwise colon-separated lowercase hex
groups (`std`'s zero-run compression of other addresses is not modelled;
only the wildcard rendering is ever compared against). -/
def ipToString : IpAddr → String
  | .v4 a b c d =>
    natDecRepr a ++ "." ++ natDecRepr b ++ "." ++ natDecRepr c ++ "."
      ++ natDecRepr d
  | .v6 g1 g2 g3 g4 g5 g6 g7 g8 =>
    if g1 = 0 && g2 = 0 && g3 = 0 && g4 = 0 && g5 = 0 && g6 = 0 && g7 = 0
        && g8 = 0 then
      "::"
    else
      String.intercalate ":"
        ([g1, g2, g3, g4, g5, g6, g7, g8].map natHexRepr)

/-- The IPv6 wildcard (unspecified) address `::`. -/
def ipv6Wildcard : IpAddr := .v6 0 0 0 0 0 0 0 0

/-- Whether an address is a wildcard ("bind to every interface") address:
`0.0.0.0` or `::`. -/
def isWildcardIp (a : IpAddr) : Bool :=
  a = .v4 0 0 0 0 || a = ipv6Wildcard

/-- Models `std::path::Path::parent` on the string form of a path: `None`
for the empty path and for the root; otherwise everything before the last
separator (`Some("")` when there is none).  Trailing separators are not
normalized; no caller of this model produces them. -/
def parentDir (p : String) : Option String :=
  if p = "" then none
  else if p = "/" then none
  else
    match (p.data.reverse).dropWhile (fun c => c ≠ '/') with
    | [] => some ""
    | _ :: rest => if rest = [] then some "/" else some (String.mk rest.reverse)

/-- Models `Path::join` for a relative file name. -/
def pathJoin (d f : String) : String :=
  if d = "" then f
  else if d = "/" then "/" ++ f
  else d ++ "/" ++ f

/-- The live relay instance (models the externally built `LocalRelay`,
identified by its bound address and port). -/
structure RelayHandle where
  addr : IpAddr
  port : Nat
deriving DecidableEq

/-- The global statics of `relay.rs` gathered into one record:
`RELAY_INSTANCE`, `RELAY_CLIENT_URL`, `RELAY_DATABASE` (a handle is
identified by the path it was opened at), `RUNTIME` (present or not),
`LOG_FILE_PATH` and `LOG_GUARD` (present or not). -/
structure GlobalState where
  relayInstance : Option RelayHandle
  relayClientUrl : Option String
  relayDatabase : Option String
  runtime : Bool
  logFilePath : Option String
  logGuard : Bool
deriving DecidableEq

/-- The state of a fresh process: every static is `None` / absent. -/
def initialState : GlobalState :=
  { relayInstance := none, relayClientUrl := none, relayDatabase := none
    runtime := false, logFilePath := none, logGuard := false }

/-- Outcomes of the external (filesystem / tokio / ndb / socket) operations a
`start_relay` call performs, `none` meaning success and `some e` failure
with error text `e`.  `logFile` is the content of `relay.log` at call time
(`none` when the file does not exist). -/
structure Env where
  logFile : Option String
  limitWriteRes : Option String
  logOpenRes : Option String
  runtimeRes : Option String
  createDirRes : Option String
  dbOpenRes : Option String
  bindRes : Option String

/-- An environment in which every external operation succeeds and no log
file exists yet. -/
def envAllOk : Env :=
  { logFile := none, limitWriteRes := none, logOpenRes := none
    runtimeRes := none, createDirRes := none, dbOpenRes := none
    bindRes := none }

/-- Models `limit_log_file_lines` (relay.rs lines 20-41): missing file is a
no-op; a file with more than `maxLines` lines is rewritten to its last
`maxLines` lines joined by newlines.  Returns the resulting file content;
`writeRes` is the outcome of the `fs::write`. -/
def limit_log_file_lines (file : Option String) (maxLines : Nat)
    (writeRes : Option String) : Except String (Option String) :=
  match file with
  | none => .ok none
  | some content =>
    let lines := strLines content
    if lines.length > maxLines then
      let start := lines.length - maxLines
      let truncated := joinNl (lines.drop start)
      match writeRes with
      | some e => .error ("Failed to write truncated log file: " ++ e)
      | none => .ok (some (String.mk truncated))
    else .ok (some content)

/-- Models the relay URL produced by the external `relay.url().await`
(relay.rs line 302).  Modelled from the spec: the client URL is "derived
from bind address and port"; IPv6 hosts are bracketed as in a URL
authority. -/
def relayUrlString (addr : IpAddr) (port : Nat) : String :=
  "ws://"
    ++ (match addr with
        | .v4 _ _ _ _ => ipToString addr
        | .v6 _ _ _ _ _ _ _ _ => "[" ++ ipToString addr ++ "]")
    ++ ":" ++ natDecRepr port

/-- The client URL computation of relay.rs lines 305-310: the literal IPv4
wildcard rendering `"0.0.0.0"` is replaced by loopback, anything else keeps
the relay's own URL. -/
def clientUrlFor (addr : IpAddr) (port : Nat) : String :=
  if ipToString addr = "0.0.0.0" then "ws://127.0.0.1:" ++ natDecRepr port
  else relayUrlString addr port

/-- Models `start_relay_async` (relay.rs lines 258-332) as a pure state
transformer: parse the host, create the database directory, open the
database and publish its handle, run the relay, compute and publish the
client URL.  The two `tracing::info!` calls touch only the log sink, not
the modelled state. -/
def start_relay_async (host : String) (port : Nat) (dbPath : String)
    (env : Env) (st : GlobalState) :
    Except String String × GlobalState :=
  match parseIp host with
  | none =>
    (.error ("Invalid IP address '" ++ host ++ "': invalid IP address syntax"),
      st)
  | some addr =>
    match parentDir dbPath, env.createDirRes with
    | some _, some e =>
      (.error ("Failed to create database directory: " ++ e), st)
    | _, _ =>
      match env.dbOpenRes with
      | some e => (.error ("Failed to open NDB database: " ++ e), st)
      | none =>
        let st := { st with relayDatabase := some dbPath }
        match env.bindRes with
        | some e => (.error ("Failed to start relay: " ++ e), st)
        | none =>
          let clientUrl := clientUrlFor addr port
          let st := { st with relayInstance := some ⟨addr, port⟩ }
          let st := { st with relayClientUrl := some clientUrl }
          (.ok clientUrl, st)

/-- Models `start_relay` (relay.rs lines 90-256): derive the log path from
the database path's parent and publish it, best-effort-truncate the
existing log file (result discarded, line 106), open the log file, publish
the log guard, lazily create the tokio runtime, then run
`start_relay_async` on it.  The rotated-file cleanup (lines 108-119)
touches only the filesystem, and the parent/file-name re-derivation there
cannot fail for the path built above, so neither appears in the modelled
state. -/
def start_relay (host : String) (port : Nat) (dbPath : String) (env : Env)
    (st : GlobalState) : Except String String × GlobalState :=
  match parentDir dbPath with
  | none => (.error "Invalid database path", st)
  | some logDir =>
    let logFilePath := pathJoin logDir "relay.log"
    let st := { st with logFilePath := some logFilePath }
    let _ := limit_log_file_lines env.logFile 200 env.limitWriteRes
    match env.logOpenRes with
    | some e => (.error ("Failed to open log file: " ++ e), st)
    | none =>
      let st := { st with logGuard := true }
      if st.runtime then start_relay_async host port dbPath env st
      else
        match env.runtimeRes with
        | some e => (.error ("Failed to create tokio runtime: " ++ e), st)
        | none =>
          let st := { st with runtime := true }
          start_relay_async host port dbPath env st

/-- Models `stop_relay` (relay.rs lines 335-361): take the handle out of the
slot, shut the relay down, clear the client URL and the log guard (the
fixed flush delay has no modelled effect). -/
def stop_relay (st : GlobalState) : Except String Unit × GlobalState :=
  match st.relayInstance with
  | none => (.error "Relay is not running", st)
  | some _ =>
    let st := { st with relayInstance := none }
    let st := { st with relayClientUrl := none }
    let st := { st with logGuard := false }
    (.ok (), st)

/-- Models `get_relay_url` (relay.rs lines 364-373). -/
def get_relay_url (st : GlobalState) : Except String String :=
  match st.relayClientUrl with
  | some url => .ok url
  | none => .error "Relay is not running"

/-- Models `is_relay_running` (relay.rs lines 376-382). -/
def is_relay_running (st : GlobalState) : Bool :=
  st.relayInstance.isSome

/-- Models the `RelayStats` result record. -/
structure RelayStats where
  total_events : Nat
deriving DecidableEq

/-- Models `get_relay_stats_sync` (relay.rs lines 413-430): requires the
runtime, then counts events through the given handle.  `counts` is the
external database content (events per path); `countRes` the outcome of
`db.count`. -/
def get_relay_stats_sync (handle : String) (st : GlobalState)
    (counts : String → Nat) (countRes : String → Option String) :
    Except String RelayStats :=
  if st.runtime then
    match countRes handle with
    | some e => .error ("Failed to count events: " ++ e)
    | none => .ok ⟨counts handle⟩
  else .error "Runtime not initialized"

/-- Models `get_relay_stats` (relay.rs lines 391-411): reuse the shared
database handle when one is stored, with no comparison against `dbPath`;
only when none is stored open `dbPath` for this query.  `dbOpenRes` is the
outcome of `NdbDatabase::open` per path. -/
def get_relay_stats (dbPath : String) (st : GlobalState)
    (counts : String → Nat) (dbOpenRes : String → Option String)
    (countRes : String → Option String) : Except String RelayStats :=
  match st.relayDatabase with
  | some handle => get_relay_stats_sync handle st counts countRes
  | none =>
    match dbOpenRes dbPath with
    | some e => .error ("Failed to open database: " ++ e)
    | none => get_relay_stats_sync dbPath st counts countRes

/-- Models `get_log_file_path` (relay.rs lines 459-468). -/
def get_log_file_path (st : GlobalState) : Except String String :=
  match st.logFilePath with
  | some p => .ok p
  | none => .error "Log file path not set"

/-- Models `read_log_file` (relay.rs lines 473-522) as a pure function of
the log file content (`file`, `none` when the file does not exist) and the
outcome `writeRes` of the pruning `fs::write`; returns the call's result
together with the file content afterwards. -/
def read_log_file (maxLines : Option Nat) (st : GlobalState)
    (file : Option String) (writeRes : Option String) :
    Except String String × Option String :=
  match st.logFilePath with
  | none => (.error "Log file path not set", file)
  | some _ =>
    match file with
    | none => (.ok "Log file does not exist yet.", file)
    | some content =>
      if content = "" then (.ok "Log file is empty.", file)
      else
        let lines := strLines content
        if lines.length > 200 then
          let start := lines.length - 200
          let truncated := String.mk (joinNl (lines.drop start))
          match writeRes with
          | some e => (.error ("Failed to truncate log file: " ++ e), file)
          | none =>
            let max := min ((maxLines.getD 200)) 200
            if max < 200 then
              let startIdx := 200 - max
              (.ok (String.mk (joinNl ((strLines truncated).drop startIdx))),
                some truncated)
            else (.ok truncated, some truncated)
        else
          let max := min ((maxLines.getD 200)) 200
          if lines.length > max then
            let start := lines.length - max
            (.ok (String.mk (joinNl (lines.drop start))), file)
          else (.ok content, file)

/-- Models `tracing::Level`.  The crate orders levels by urgency:
`ERROR < WARN < INFO < DEBUG < TRACE`. -/
inductive TracingLevel where
  | error | warn | info | debug | trace
deriving DecidableEq

/-- Numeric position of a level in the crate's order (`error` least). -/
def levelNum : TracingLevel → Nat
  | .error => 0
  | .warn => 1
  | .info => 2
  | .debug => 3
  | .trace => 4

/-- Models the `MessageVisitor` fold of relay.rs lines 157-168 over the
event's fields (each field given as its name and the `{:?}` rendering of
its value): a `"message"` field's rendering is appended to the collected
message; any other field contributes `name=value` only while the collected
message is still empty. -/
def collectMessage (fields : List (String × String)) : String :=
  fields.foldl
    (fun acc f =>
      if f.1 = "message" then acc ++ f.2
      else if acc = "" then acc ++ f.1 ++ "=" ++ f.2
      else acc)
    ""

/-- Left-pads a decimal rendering to two digits (`{:02}`). -/
def pad2 (n : Nat) : String :=
  if n < 10 then "0" ++ natDecRepr n else natDecRepr n

/-- Left-pads a decimal rendering to three digits (`{:03}`). -/
def pad3 (n : Nat) : String :=
  if n < 10 then "00" ++ natDecRepr n
  else if n < 100 then "0" ++ natDecRepr n
  else natDecRepr n

/-- The `HH:MM:SS.mmm ` timestamp of relay.rs lines 190-199, from whole
seconds since the epoch and the millisecond remainder. -/
def timestampStr (totalSecs millis : Nat) : String :=
  let timeOfDay := totalSecs % 86400
  pad2 (timeOfDay / 3600) ++ ":" ++ pad2 (timeOfDay % 3600 / 60) ++ ":"
    ++ pad2 (timeOfDay % 60) ++ "." ++ pad3 millis ++ " "

/-- The `[LEVEL] ` tag of relay.rs lines 202-208. -/
def levelTag : TracingLevel → String
  | .error => "[ERROR] "
  | .warn => "[WARN] "
  | .info => "[INFO] "
  | .debug => "[DEBUG] "
  | .trace => "[TRACE] "

/-- Models `EventOnlyFormatter::format_event` (relay.rs lines 146-219) as
the text it appends for one event.  `fieldsFmt` is what the default
`ctx.format_fields` renders for the event; `time` is the
`SystemTime::now()` reading (`none` when the clock errors, in which case no
timestamp is written).  An event whose collected message is empty is
formatted generically *before* the severity check; otherwise events above
`INFO` in the crate's order (`DEBUG`, `TRACE`) produce nothing. -/
def format_event (level : TracingLevel) (fields : List (String × String))
    (fieldsFmt : String) (time : Option (Nat × Nat)) : String :=
  let message := collectMessage fields
  if message = "" then fieldsFmt ++ "\n"
  else if ¬ (levelNum level ≤ levelNum .info) then ""
  else
    (match time with
     | some (secs, millis) => timestampStr secs millis
     | none => "")
      ++ levelTag level
      ++ (if message ≠ "" then message else fieldsFmt)
      ++ "\n"

/-- Models `clear_log_file` (relay.rs lines 44-58): requires the log path,
then empties the file (`writeRes` is the `fs::write` outcome). -/
def clear_log_file (st : GlobalState) (file : Option String)
    (writeRes : Option String) : Except String Unit × Option String :=
  match st.logFilePath with
  | none => (.error "Log file path not set", file)
  | some _ =>
    match writeRes with
    | some e => (.error ("Failed to clear log file: " ++ e), file)
    | none => (.ok (), some "")

/-! ### Derived contents and concrete fixtures used by the theorems -/

/-- The content `read_log_file` writes back when the file holds more than
200 lines: the last 200 lines joined by newlines (relay.rs lines 497-502). -/
def prunedOf (content : String) : String :=
  String.mk
    (joinNl ((strLines content).drop ((strLines content).length - 200)))

/-- A state in which a start call has set the log file path (the
precondition for every `read_log_file` path that touches the file). -/
def stLog : GlobalState :=
  { initialState with logFilePath := some "/data/relay.log" }

/-- A 201-line log file (201 lines of `b`). -/
def content201 : String := String.mk (joinNl (List.replicate 201 ['b']))

/-- A 500-line log file (500 lines of `a`), last line nonempty. -/
def content500 : String := String.mk (joinNl (List.replicate 500 ['a']))

/-- A 500-line log file whose 500th line is empty: 499 lines of `a`
followed by a final empty line (the content ends in two newlines). -/
def content500e : String :=
  String.mk (joinNl (List.replicate 499 ['a']) ++ ['\n', '\n'])

/-- The character form of the literal wildcard address `"0.0.0.0"`. -/
def wildcardChars : List Char := ['0', '.', '0', '.', '0', '.', '0']

/-- A state in which a relay is running with a shared database handle
opened at path `"A"`. -/
def stSharedA : GlobalState :=
  { initialState with runtime := true, relayDatabase := some "A" }

/-- A database content with 5 events in the store at `"A"` and none
anywhere else. -/
def countsAB : String → Nat := fun p => if p = "A" then 5 else 0

/-! ### Properties of the line model -/

theorem splitOnChar_ne_nil (sep : Char) (cs : List Char) :
    splitOnChar sep cs ≠ [] := by
  match cs with
  | [] => simp [splitOnChar]
  | c :: cs =>
    by_cases h : c = sep
    · simp [splitOnChar, h]
    · simp only [splitOnChar, if_neg h]
      match splitOnChar sep cs with
      | [] => simp
      | p :: ps => simp

theorem mem_splitOnChar_not_sep (sep : Char) :
    ∀ cs l, l ∈ splitOnChar sep cs → sep ∉ l := by
  intro cs
  induction cs with
  | nil => intro l hl; simp [splitOnChar] at hl; simp [hl]
  | cons c cs ih =>
    intro l hl
    by_cases h : c = sep
    · simp only [splitOnChar, if_pos h, List.mem_cons] at hl
      rcases hl with rfl | hl
      · simp
      · exact ih l hl
    · simp only [splitOnChar, if_neg h] at hl
      rcases hps : splitOnChar sep cs with _ | ⟨p, ps⟩
      · exact absurd hps (splitOnChar_ne_nil sep cs)
      · rw [hps] at hl
        rcases List.mem_cons.mp hl with rfl | hl
        · have hp : sep ∉ p := ih p (by rw [hps]; exact List.mem_cons_self p ps)
          intro hc
          rcases List.mem_cons.mp hc with rfl | hc
          · exact h rfl
          · exact hp hc
        · exact ih l (by rw [hps]; exact List.mem_cons_of_mem p hl)

theorem splitOnChar_of_not_mem {sep : Char} {l : List Char} (h : sep ∉ l) :
    splitOnChar sep l = [l] := by
  induction l with
  | nil => simp [splitOnChar]
  | cons c l ih =>
    have hc : c ≠ sep := fun e => h (by simp [e])
    have hl : sep ∉ l := fun e => h (List.mem_cons_of_mem c e)
    simp only [splitOnChar, if_neg hc, ih hl]

theorem splitOnChar_append_sep {sep : Char} {l cs : List Char} (h : sep ∉ l) :
    splitOnChar sep (l ++ sep :: cs) = l :: splitOnChar sep cs := by
  induction l with
  | nil => simp [splitOnChar]
  | cons c l ih =>
    have hc : c ≠ sep := fun e => h (by simp [e])
    have hl : sep ∉ l := fun e => h (List.mem_cons_of_mem c e)
    have ihl := ih hl
    simp only [List.cons_append, splitOnChar, if_neg hc]
    simp only [List.append_eq] at ihl ⊢
    rw [ihl]

theorem splitOnChar_joinNl :
    ∀ ls : List (List Char), ls ≠ [] → (∀ l ∈ ls, '\n' ∉ l) →
      splitOnChar '\n' (joinNl ls) = ls := by
  intro ls
  induction ls with
  | nil => intro h; exact absurd rfl h
  | cons l ls ih =>
    intro _ hmem
    match ls, ih with
    | [], _ =>
      simpa [joinNl] using splitOnChar_of_not_mem (hmem l (by simp))
    | l' :: ls', ih =>
      have h1 : '\n' ∉ l := hmem l (by simp)
      have h2 : ∀ x ∈ l' :: ls', '\n' ∉ x :=
        fun x hx => hmem x (List.mem_cons_of_mem l hx)
      calc splitOnChar '\n' (joinNl (l :: l' :: ls'))
          = splitOnChar '\n' (l ++ '\n' :: joinNl (l' :: ls')) := rfl
        _ = l :: splitOnChar '\n' (joinNl (l' :: ls')) :=
            splitOnChar_append_sep h1
        _ = l :: (l' :: ls') := by rw [ih (by simp) h2]

theorem stripCr_not_mem {c : Char} {l : List Char} (h : c ∉ l) :
    c ∉ stripCr l := by
  unfold stripCr
  split
  · exact fun hc => h (List.dropLast_subset l hc)
  · exact h

theorem mem_linesList_not_mem {c : Char} :
    ∀ parts, (∀ p ∈ parts, c ∉ p) → ∀ l ∈ linesList parts, c ∉ l := by
  intro parts
  match parts with
  | [] => intro _ l hl; simp [linesList] at hl
  | [last] =>
    intro hp l hl
    unfold linesList at hl
    split at hl
    · simp at hl
    · simp at hl; subst hl; exact hp l (by simp)
  | p :: q :: rest =>
    intro hp l hl
    unfold linesList at hl
    rcases List.mem_cons.mp hl with rfl | hl
    · exact stripCr_not_mem (hp p (by simp))
    · exact mem_linesList_not_mem (q :: rest)
        (fun x hx => hp x (List.mem_cons_of_mem p hx)) l hl

theorem mem_strLines_not_nl {s : String} : ∀ l ∈ strLines s, '\n' ∉ l :=
  mem_linesList_not_mem (splitOnChar '\n' s.data)
    (fun p hp => mem_splitOnChar_not_sep '\n' s.data p hp)

theorem linesList_length_le : ∀ parts, (linesList parts).length ≤ parts.length
  | [] => by simp [linesList]
  | [last] => by by_cases h : last = [] <;> simp [linesList, h]
  | p :: q :: rest => by
    have ih := linesList_length_le (q :: rest)
    simp only [List.length_cons] at ih
    simp only [linesList, List.length_cons]
    omega

theorem linesList_of_getLast_ne :
    ∀ parts last, parts.getLast? = some last → last ≠ [] →
      linesList parts = parts.dropLast.map stripCr ++ [last] := by
  intro parts
  match parts with
  | [] => intro last h; simp at h
  | [l] =>
    intro last h hne
    simp only [List.getLast?_singleton, Option.some.injEq] at h
    subst h
    simp [linesList, hne]
  | p :: q :: rest =>
    intro last h hne
    have h' : (q :: rest).getLast? = some last := by
      rwa [List.getLast?_cons_cons] at h
    have ih := linesList_of_getLast_ne (q :: rest) last h' hne
    simp only [linesList, ih, List.dropLast_cons₂, List.map_cons,
      List.cons_append]

theorem joinNl_ne_nil : ∀ ls : List (List Char), 2 ≤ ls.length →
    joinNl ls ≠ []
  | [], h => by simp at h
  | [l], h => by simp at h
  | l :: l' :: rest, _ => by
    show l ++ '\n' :: joinNl (l' :: rest) ≠ []
    simp

theorem strLines_mk (cs : List Char) :
    strLines (String.mk cs) = linesList (splitOnChar '\n' cs) := rfl

theorem strLines_ne_nil {s : String} (h : s ≠ "") : strLines s ≠ [] := by
  have hd : s.data ≠ [] := fun e => h (String.ext e)
  unfold strLines
  rcases hsd : s.data with _ | ⟨c, cs⟩
  · exact absurd hsd hd
  · by_cases hc : c = '\n'
    · simp only [splitOnChar, if_pos hc]
      rcases hps : splitOnChar '\n' cs with _ | ⟨p, ps⟩
      · exact absurd hps (splitOnChar_ne_nil _ _)
      · simp [linesList]
    · simp only [splitOnChar, if_neg hc]
      rcases hps : splitOnChar '\n' cs with _ | ⟨p, ps⟩
      · simp [linesList]
      · rcases ps with _ | ⟨q, qs⟩
        · simp [linesList]
        · simp [linesList]

/-! ### The pruned log file content -/

theorem length_drop_tail {content : String}
    (h : 200 < (strLines content).length) :
    ((strLines content).drop ((strLines content).length - 200)).length
      = 200 := by
  simp only [List.length_drop]
  omega

theorem strLines_prunedOf {content : String}
    (h : 200 < (strLines content).length) :
    strLines (prunedOf content) =
      linesList ((strLines content).drop ((strLines content).length - 200))
    := by
  unfold prunedOf
  rw [strLines_mk, splitOnChar_joinNl]
  · intro e
    have := length_drop_tail h
    rw [e] at this
    simp at this
  · intro l hl
    exact mem_strLines_not_nl l (List.mem_of_mem_drop hl)

theorem strLines_prunedOf_length_le {content : String}
    (h : 200 < (strLines content).length) :
    (strLines (prunedOf content)).length ≤ 200 := by
  rw [strLines_prunedOf h]
  calc (linesList _).length
      ≤ ((strLines content).drop ((strLines content).length - 200)).length :=
        linesList_length_le _
    _ = 200 := length_drop_tail h

theorem prunedOf_ne_empty {content : String}
    (h : 200 < (strLines content).length) :
    prunedOf content ≠ "" := by
  intro e
  have hdata := String.data_eq_of_eq e
  simp only [prunedOf] at hdata
  refine joinNl_ne_nil _ ?_ hdata
  rw [length_drop_tail h]
  omega

theorem strLines_empty : strLines "" = [] := by decide

theorem content_ne_empty_of_lines {content : String} {n : Nat}
    (h : n < (strLines content).length) : content ≠ "" := by
  intro e
  rw [e, strLines_empty] at h
  simp at h

/-- Unfolds `read_log_file` on a file of more than 200 lines with a
successful rewrite: the file afterwards holds exactly the pruned content. -/
theorem read_log_file_snd_big (maxL : Option Nat) (st : GlobalState)
    (p content : String) (hp : st.logFilePath = some p)
    (h : 200 < (strLines content).length) :
    (read_log_file maxL st (some content) none).2 = some (prunedOf content)
    := by
  have hne : content ≠ "" := content_ne_empty_of_lines h
  simp only [read_log_file, hp, if_neg hne, if_pos h]
  split <;> rfl

/-- Unfolds `read_log_file` on a file of at most 200 lines: no write
happens, the file is unchanged. -/
theorem read_log_file_snd_small (maxL : Option Nat) (st : GlobalState)
    (p content : String) (wr : Option String)
    (hp : st.logFilePath = some p) (hne : content ≠ "")
    (h : (strLines content).length ≤ 200) :
    (read_log_file maxL st (some content) wr).2 = some content := by
  simp only [read_log_file, hp, if_neg hne,
    if_neg (by omega : ¬ 200 < (strLines content).length)]
  split <;> rfl

/-- C4: on a file of more than 200 lines, `read_log_file` rewrites the file
to the last 200 lines joined by newlines (`prunedOf`), the rewritten file
parses to at most 200 lines, and a second call (whatever its `max_lines`
argument and whatever its write outcome, since it performs no write) leaves
the file content unchanged. -/
theorem read_log_file_prunes_idempotent (maxL maxL' : Option Nat)
    (st : GlobalState) (p content : String) (wr' : Option String)
    (hp : st.logFilePath = some p)
    (h : 200 < (strLines content).length) :
    (read_log_file maxL st (some content) none).2 = some (prunedOf content)
      ∧ (strLines (prunedOf content)).length ≤ 200
      ∧ (read_log_file maxL' st (some (prunedOf content)) wr').2
          = some (prunedOf content) := by
  refine ⟨read_log_file_snd_big maxL st p content hp h,
    strLines_prunedOf_length_le h, ?_⟩
  exact read_log_file_snd_small maxL' st p (prunedOf content) wr' hp
    (prunedOf_ne_empty h) (strLines_prunedOf_length_le h)

/-- Witness for C4 at a concrete 201-line file. -/
theorem read_log_file_prunes_idempotent_witness :
    (read_log_file none stLog (some content201) none).2
        = some (prunedOf content201)
      ∧ (strLines (prunedOf content201)).length ≤ 200
      ∧ (read_log_file (some 5) stLog (some (prunedOf content201)) none).2
          = some (prunedOf content201) :=
  read_log_file_prunes_idempotent none (some 5) stLog "/data/relay.log"
    content201 none rfl (by decide)

/-- C5 (amended): on a 500-line file whose last line is nonempty,
`read_log_file(Some 10)` prunes the file to exactly 200 lines and returns
the last 10 lines of the pruned file joined by newlines; when moreover no
retained line ends in a carriage return, those are exactly the last 10
lines of the original 500. -/
theorem read_log_file_500_last10 (st : GlobalState) (p content : String)
    (hp : st.logFilePath = some p)
    (h500 : (strLines content).length = 500)
    (hlast : (strLines content).getLast? ≠ some []) :
    read_log_file (some 10) st (some content) none =
        (.ok (String.mk (joinNl ((strLines (prunedOf content)).drop 190))),
          some (prunedOf content))
      ∧ (strLines (prunedOf content)).length = 200
      ∧ ((∀ l ∈ (strLines content).drop 300, l.getLast? ≠ some '\r') →
          (strLines (prunedOf content)).drop 190
            = (strLines content).drop 490) := by
  have h200 : 200 < (strLines content).length := by omega
  have hne : content ≠ "" := content_ne_empty_of_lines h200
  set tail := (strLines content).drop ((strLines content).length - 200)
    with htail
  have htail_len : tail.length = 200 := length_drop_tail h200
  have htail_ne : tail ≠ [] := by
    intro e; rw [e] at htail_len; simp at htail_len
  have hlast? : tail.getLast? = (strLines content).getLast? := by
    rw [List.getLast?_eq_getElem?, List.getLast?_eq_getElem?, htail_len,
      htail, List.getElem?_drop]
    congr 1
    omega
  have hlastval : tail.getLast? = some (tail.getLast htail_ne) :=
    List.getLast?_eq_getLast tail htail_ne
  have hlast_ne : tail.getLast htail_ne ≠ [] := by
    intro e
    apply hlast
    rw [← hlast?, hlastval, e]
  have hll : linesList tail
      = tail.dropLast.map stripCr ++ [tail.getLast htail_ne] :=
    linesList_of_getLast_ne tail _ hlastval hlast_ne
  have hpl : strLines (prunedOf content) = linesList tail :=
    strLines_prunedOf h200
  have hplen : (strLines (prunedOf content)).length = 200 := by
    rw [hpl, hll]
    simp only [List.length_append, List.length_map, List.length_dropLast,
      htail_len, List.length_cons, List.length_nil]
  refine ⟨?_, hplen, ?_⟩
  · simp only [read_log_file, hp, if_neg hne, if_pos h200,
      Option.getD_some]
    norm_num
    simp only [prunedOf, ← htail]
    exact ⟨trivial, trivial⟩
  · intro hcr
    have hsub : ∀ l ∈ tail.dropLast, stripCr l = l := by
      intro l hl
      have hmem : l ∈ tail := List.dropLast_subset tail hl
      have : l.getLast? ≠ some '\r' := by
        apply hcr
        rw [htail, h500] at hmem
        exact hmem
      simp only [stripCr, if_neg this]
    rw [hpl, hll, List.map_congr_left hsub, List.map_id',
      List.dropLast_append_getLast htail_ne, htail, h500,
      List.drop_drop]

/-- Witness for C5 at a concrete 500-line file of nonempty lines. -/
theorem read_log_file_500_last10_witness :
    read_log_file (some 10) stLog (some content500) none =
        (.ok (String.mk (joinNl ((strLines (prunedOf content500)).drop 190))),
          some (prunedOf content500))
      ∧ (strLines (prunedOf content500)).length = 200
      ∧ ((∀ l ∈ (strLines content500).drop 300, l.getLast? ≠ some '\r') →
          (strLines (prunedOf content500)).drop 190
            = (strLines content500).drop 490) :=
  read_log_file_500_last10 stLog "/data/relay.log" content500 rfl
    (by decide) (by decide)

/-- Counterexample to C5 as stated: on a 500-line file whose 500th line is
empty, `read_log_file(Some 10)` returns a string of only 9 lines — not the
last 10 lines of the original file — because the pruned content ends in a
newline and re-parsing it yields 199 lines, of which the code skips the
first 190. -/
theorem read_log_file_500_last10_cex :
    (strLines content500e).length = 500
      ∧ (read_log_file (some 10) stLog (some content500e) none).1
          = .ok (String.mk (joinNl (List.replicate 9 ['a'])))
      ∧ (strLines (String.mk (joinNl (List.replicate 9 ['a'])))).length = 9
      ∧ (read_log_file (some 10) stLog (some content500e) none).1
          ≠ .ok (String.mk (joinNl ((strLines content500e).drop 490))) := by
  refine ⟨by decide, by decide, by decide, by decide⟩

/-- C9: on an existing, non-empty log file of at most 200 lines,
`read_log_file(Some 0)` succeeds with the empty string (not a sentinel
message, not an error), and the file is unchanged. -/
theorem read_log_file_zero (st : GlobalState) (p content : String)
    (wr : Option String) (hp : st.logFilePath = some p)
    (hne : content ≠ "") (h : (strLines content).length ≤ 200) :
    read_log_file (some 0) st (some content) wr = (.ok "", some content)
    := by
  have hlines : strLines content ≠ [] := strLines_ne_nil hne
  have hpos : 0 < (strLines content).length := List.length_pos.mpr hlines
  simp only [read_log_file, hp, if_neg hne,
    if_neg (by omega : ¬ 200 < (strLines content).length),
    Option.getD_some]
  norm_num
  rw [if_pos hpos]
  simp only [Nat.sub_zero, List.drop_length, joinNl]

/-- Witness for C9 at a concrete 3-line file. -/
theorem read_log_file_zero_witness :
    read_log_file (some 0) stLog (some "x\ny\nz") none
      = (.ok "", some "x\ny\nz") :=
  read_log_file_zero stLog "/data/relay.log" "x\ny\nz" none rfl (by decide)
    (by decide)

/-! ### Start-failure behaviour (C1) -/

theorem strData_append (a b : String) : (a ++ b).data = a.data ++ b.data := by
  cases a; cases b; rfl

theorem str_append_ne_empty {a : String} (b : String) (h : a ≠ "") :
    a ++ b ≠ "" := by
  intro e
  apply h
  have hd := String.data_eq_of_eq e
  rw [strData_append] at hd
  exact String.ext (List.append_eq_nil.mp hd).1

theorem start_relay_async_error (host : String) (port : Nat)
    (dbPath : String) (env : Env) (st : GlobalState) (e : String)
    (st' : GlobalState)
    (h : start_relay_async host port dbPath env st = (.error e, st')) :
    st'.relayInstance = st.relayInstance
      ∧ st'.relayClientUrl = st.relayClientUrl ∧ e ≠ "" := by
  unfold start_relay_async at h
  dsimp only at h
  split at h
  · simp only [Prod.mk.injEq, Except.error.injEq] at h
    obtain ⟨rfl, rfl⟩ := h
    exact ⟨rfl, rfl,
      str_append_ne_empty _ (str_append_ne_empty _ (by decide))⟩
  · split at h
    · simp only [Prod.mk.injEq, Except.error.injEq] at h
      obtain ⟨rfl, rfl⟩ := h
      exact ⟨rfl, rfl, str_append_ne_empty _ (by decide)⟩
    · split at h
      · simp only [Prod.mk.injEq, Except.error.injEq] at h
        obtain ⟨rfl, rfl⟩ := h
        exact ⟨rfl, rfl, str_append_ne_empty _ (by decide)⟩
      · split at h
        · simp only [Prod.mk.injEq, Except.error.injEq] at h
          obtain ⟨rfl, rfl⟩ := h
          exact ⟨rfl, rfl, str_append_ne_empty _ (by decide)⟩
        · simp only [Prod.mk.injEq] at h
          exact absurd h.1 (by simp)

/-- C1 (amended): when `start_relay` fails, the lifecycle slot
(`RELAY_INSTANCE`) and the client URL (`RELAY_CLIENT_URL`) are untouched
— so `is_relay_running` is unchanged and a Stopped state stays Stopped —
and the returned error is a nonempty (descriptive) message.  The log path,
log guard, runtime and (on a bind failure) the database handle may
nevertheless have been mutated, which is what refutes the claim as
stated. -/
theorem start_relay_error_preserves (host : String) (port : Nat)
    (dbPath : String) (env : Env) (st : GlobalState) (e : String)
    (st' : GlobalState)
    (h : start_relay host port dbPath env st = (.error e, st')) :
    st'.relayInstance = st.relayInstance
      ∧ st'.relayClientUrl = st.relayClientUrl
      ∧ is_relay_running st' = is_relay_running st
      ∧ e ≠ "" := by
  have key : st'.relayInstance = st.relayInstance
      ∧ st'.relayClientUrl = st.relayClientUrl ∧ e ≠ "" := by
    unfold start_relay at h
    dsimp only at h
    split at h
    · simp only [Prod.mk.injEq, Except.error.injEq] at h
      obtain ⟨rfl, rfl⟩ := h
      exact ⟨rfl, rfl, by decide⟩
    · split at h
      · simp only [Prod.mk.injEq, Except.error.injEq] at h
        obtain ⟨rfl, rfl⟩ := h
        exact ⟨rfl, rfl, str_append_ne_empty _ (by decide)⟩
      · split at h
        · have hkey := start_relay_async_error host port dbPath env _ e st' h
          exact hkey
        · split at h
          · simp only [Prod.mk.injEq, Except.error.injEq] at h
            obtain ⟨rfl, rfl⟩ := h
            exact ⟨rfl, rfl, str_append_ne_empty _ (by decide)⟩
          · have hkey :=
              start_relay_async_error host port dbPath env _ e st' h
            exact hkey
  refine ⟨key.1, key.2.1, ?_, key.2.2⟩
  unfold is_relay_running
  rw [key.1]

/-- Witness for C1 at a concrete failing call (database open fails). -/
theorem start_relay_error_preserves_witness :
    (start_relay "127.0.0.1" 8081 "/data/db"
          { envAllOk with dbOpenRes := some "boom" } initialState).2.relayInstance
        = initialState.relayInstance
      ∧ (start_relay "127.0.0.1" 8081 "/data/db"
          { envAllOk with dbOpenRes := some "boom" } initialState).2.relayClientUrl
        = initialState.relayClientUrl
      ∧ is_relay_running (start_relay "127.0.0.1" 8081 "/data/db"
          { envAllOk with dbOpenRes := some "boom" } initialState).2
        = is_relay_running initialState
      ∧ "Failed to open NDB database: boom" ≠ "" :=
  start_relay_error_preserves "127.0.0.1" 8081 "/data/db"
    { envAllOk with dbOpenRes := some "boom" } initialState
    "Failed to open NDB database: boom"
    { relayInstance := none, relayClientUrl := none, relayDatabase := none
      runtime := true, logFilePath := some "/data/relay.log"
      logGuard := true }
    (by decide)

/-- Counterexample to C1 as stated: a start call that fails on an invalid
IP address has already published the log file path and the log guard (and
created the runtime), so global state *is* mutated by the failed call. -/
theorem start_relay_error_preserves_cex :
    (start_relay "not-an-ip" 8081 "/data/db" envAllOk initialState).1
        = .error "Invalid IP address 'not-an-ip': invalid IP address syntax"
      ∧ (start_relay "not-an-ip" 8081 "/data/db" envAllOk
          initialState).2.logFilePath = some "/data/relay.log"
      ∧ initialState.logFilePath = none
      ∧ (start_relay "not-an-ip" 8081 "/data/db" envAllOk
          initialState).2.logGuard = true
      ∧ initialState.logGuard = false
      ∧ (start_relay "not-an-ip" 8081 "/data/db" envAllOk initialState).2
          ≠ initialState := by
  refine ⟨by decide, by decide, by decide, by decide, by decide, by decide⟩

/-! ### The loopback URL contains no wildcard (C2) -/

theorem decDigit_isDigit {d : Nat} (h : d < 10) :
    (decDigit d).isDigit = true := by
  interval_cases d <;> decide

theorem natDecCharsAux_digits :
    ∀ fuel n c, c ∈ natDecCharsAux fuel n → c.isDigit = true := by
  intro fuel
  induction fuel with
  | zero => intro n c hc; simp [natDecCharsAux] at hc
  | succ fuel ih =>
    intro n c hc
    unfold natDecCharsAux at hc
    split at hc
    · simp only [List.mem_singleton] at hc
      subst hc
      exact decDigit_isDigit (by omega)
    · rcases List.mem_append.mp hc with hc | hc
      · exact ih _ _ hc
      · simp only [List.mem_singleton] at hc
        subst hc
        exact decDigit_isDigit (Nat.mod_lt _ (by omega))

theorem natDecChars_digits {n : Nat} {c : Char} (hc : c ∈ natDecChars n) :
    c.isDigit = true :=
  natDecCharsAux_digits _ _ _ hc

theorem listStarts_dot_digits (ds : List Char)
    (h : ∀ c ∈ ds, c.isDigit = true) (tail : List Char) :
    listStarts ('.' :: tail) ds = false := by
  cases ds with
  | nil => rfl
  | cons d t =>
    have hd := h d (by simp)
    show (('.' == d) && listStarts tail t) = false
    have hne : ('.' == d) = false := by
      refine beq_eq_false_iff_ne.mpr ?_
      intro e
      rw [← e] at hd
      exact absurd hd (by decide)
    rw [hne, Bool.false_and]

theorem listStarts_wildcard_digits (ds : List Char)
    (h : ∀ c ∈ ds, c.isDigit = true) :
    listStarts wildcardChars ds = false := by
  cases ds with
  | nil => rfl
  | cons d t =>
    show (('0' == d) && listStarts ['.', '0', '.', '0', '.', '0'] t) = false
    cases h0 : ('0' == d)
    · rw [Bool.false_and]
    · rw [Bool.true_and]
      exact listStarts_dot_digits t (fun c hc => h c (by simp [hc])) _

theorem containsSub_wildcard_digits (ds : List Char)
    (h : ∀ c ∈ ds, c.isDigit = true) :
    containsSub wildcardChars ds = false := by
  induction ds with
  | nil => decide
  | cons d t ih =>
    show (listStarts wildcardChars (d :: t)
        || containsSub wildcardChars t) = false
    rw [listStarts_wildcard_digits _ h, Bool.false_or]
    exact ih (fun c hc => h c (List.mem_cons_of_mem d hc))

/-- The loopback URL built for the wildcard bind never contains the literal
wildcard address, whatever the port. -/
theorem loopback_url_no_wildcard (port : Nat) :
    strContains ("ws://127.0.0.1:" ++ natDecRepr port) "0.0.0.0" = false
    := by
  unfold strContains
  rw [show ("0.0.0.0" : String).data = wildcardChars from by decide,
    strData_append,
    show ("ws://127.0.0.1:" : String).data
      = ['w', 's', ':', '/', '/', '1', '2', '7', '.', '0', '.', '0', '.',
          '1', ':'] from by decide,
    show (natDecRepr port).data = natDecChars port from rfl]
  simp only [List.cons_append, List.nil_append]
  simp +decide only [containsSub, listStarts]
  exact containsSub_wildcard_digits _ (fun c hc => natDecChars_digits hc)

/-- C2: a successful start with host `"0.0.0.0"` and port P returns, and
stores as the client URL, exactly `"ws://127.0.0.1:P"`, and that string
never contains the literal wildcard address `"0.0.0.0"`. -/
theorem start_relay_wildcard_loopback (port : Nat) (dbPath : String)
    (env : Env) (st : GlobalState) (logDir : String)
    (hp : parentDir dbPath = some logDir)
    (h1 : env.logOpenRes = none) (h2 : env.runtimeRes = none)
    (h3 : env.createDirRes = none) (h4 : env.dbOpenRes = none)
    (h5 : env.bindRes = none) :
    (start_relay "0.0.0.0" port dbPath env st).1
        = .ok ("ws://127.0.0.1:" ++ natDecRepr port)
      ∧ (start_relay "0.0.0.0" port dbPath env st).2.relayClientUrl
          = some ("ws://127.0.0.1:" ++ natDecRepr port)
      ∧ strContains ("ws://127.0.0.1:" ++ natDecRepr port) "0.0.0.0"
          = false := by
  have hparse : parseIp "0.0.0.0" = some (.v4 0 0 0 0) := by decide
  have hurl : clientUrlFor (.v4 0 0 0 0) port
      = "ws://127.0.0.1:" ++ natDecRepr port := by
    unfold clientUrlFor
    rw [if_pos (by decide : ipToString (IpAddr.v4 0 0 0 0) = "0.0.0.0")]
  refine ⟨?_, ?_, loopback_url_no_wildcard port⟩ <;>
  · unfold start_relay start_relay_async
    simp only [hp, h1, h2, h3, h4, h5, hparse, hurl]
    split <;> rfl

/-- Witness for C2 at a concrete successful start. -/
theorem start_relay_wildcard_loopback_witness :
    (start_relay "0.0.0.0" 8081 "/data/db" envAllOk initialState).1
        = .ok ("ws://127.0.0.1:" ++ natDecRepr 8081)
      ∧ (start_relay "0.0.0.0" 8081 "/data/db" envAllOk
          initialState).2.relayClientUrl
          = some ("ws://127.0.0.1:" ++ natDecRepr 8081)
      ∧ strContains ("ws://127.0.0.1:" ++ natDecRepr 8081) "0.0.0.0"
          = false :=
  start_relay_wildcard_loopback 8081 "/data/db" envAllOk initialState
    "/data" rfl rfl rfl rfl rfl rfl

/-- C3 (amended): on every successful start the returned and stored URL is
exactly `clientUrlFor addr port`: the loopback substitution applies only
when the parsed bind address renders as the literal `"0.0.0.0"`; every
other accepted host — including the IPv6 wildcard `"::"` — stores the
relay's own URL for the bind address unchanged. -/
theorem start_relay_url_characterization (host : String) (port : Nat)
    (dbPath : String) (env : Env) (st : GlobalState) (addr : IpAddr)
    (logDir : String) (ha : parseIp host = some addr)
    (hp : parentDir dbPath = some logDir)
    (h1 : env.logOpenRes = none) (h2 : env.runtimeRes = none)
    (h3 : env.createDirRes = none) (h4 : env.dbOpenRes = none)
    (h5 : env.bindRes = none) :
    (start_relay host port dbPath env st).1 = .ok (clientUrlFor addr port)
      ∧ (start_relay host port dbPath env st).2.relayClientUrl
          = some (clientUrlFor addr port) := by
  refine ⟨?_, ?_⟩ <;>
  · unfold start_relay start_relay_async
    simp only [hp, h1, h2, h3, h4, h5, ha]
    split <;> rfl

/-- Witness for C3 at a concrete non-wildcard IPv4 host. -/
theorem start_relay_url_characterization_witness :
    (start_relay "10.0.0.5" 9000 "/data/db" envAllOk initialState).1
        = .ok (clientUrlFor (.v4 10 0 0 5) 9000)
      ∧ (start_relay "10.0.0.5" 9000 "/data/db" envAllOk
          initialState).2.relayClientUrl
          = some (clientUrlFor (.v4 10 0 0 5) 9000) :=
  start_relay_url_characterization "10.0.0.5" 9000 "/data/db" envAllOk
    initialState (.v4 10 0 0 5) "/data" (by decide) rfl rfl rfl rfl rfl rfl

/-- Counterexample to C3 as stated: starting with the IPv6 wildcard host
`"::"` succeeds and stores the wildcard URL `"ws://[::]:8081"` — the
loopback substitution only matches the literal rendering `"0.0.0.0"`, so
the stored ClientUrl *is* a wildcard address here. -/
theorem start_relay_url_characterization_cex :
    (start_relay "::" 8081 "/data/db" envAllOk initialState).2.relayClientUrl
        = some (relayUrlString ipv6Wildcard 8081)
      ∧ relayUrlString ipv6Wildcard 8081 = "ws://[::]:8081"
      ∧ isWildcardIp ipv6Wildcard = true
      ∧ strContains "ws://[::]:8081" "::" = true := by
  refine ⟨by decide, by decide, by decide, by decide⟩

/-- C6 (amended): `get_relay_stats` reuses whatever database handle is in
shared state, with *no* comparison against `db_path`; only when no handle
is stored does it open `db_path` for the query.  The returned
`total_events` therefore counts the shared handle's store when one exists,
which need not be the store at `db_path`. -/
theorem get_relay_stats_characterization (dbPath : String)
    (st : GlobalState) (counts : String → Nat)
    (dbOpenRes countRes : String → Option String)
    (hr : st.runtime = true) :
    (∀ h, st.relayDatabase = some h → countRes h = none →
        get_relay_stats dbPath st counts dbOpenRes countRes
          = .ok ⟨counts h⟩)
      ∧ (st.relayDatabase = none → dbOpenRes dbPath = none →
          countRes dbPath = none →
          get_relay_stats dbPath st counts dbOpenRes countRes
            = .ok ⟨counts dbPath⟩) := by
  constructor
  · intro h hdb hc
    simp only [get_relay_stats, hdb, get_relay_stats_sync, hr, if_true, hc]
  · intro hdb ho hc
    simp only [get_relay_stats, hdb, ho, get_relay_stats_sync, hr, if_true,
      hc]

/-- Witness for C6: with a shared handle at `"A"`, querying `"B"` reuses
the `"A"` handle. -/
theorem get_relay_stats_characterization_witness :
    get_relay_stats "B" stSharedA countsAB (fun _ => none) (fun _ => none)
      = .ok ⟨countsAB "A"⟩ :=
  (get_relay_stats_characterization "B" stSharedA countsAB
    (fun _ => none) (fun _ => none) rfl).1 "A" rfl rfl

/-- Counterexample to C6 as stated: with a shared handle for path `"A"`
holding 5 events, `get_relay_stats "B"` returns 5 even though the store at
`"B"` holds 0 events — the handle is reused without any path
equivalence check, so the result does not count the store at `db_path`. -/
theorem get_relay_stats_characterization_cex :
    get_relay_stats "B" stSharedA countsAB (fun _ => none) (fun _ => none)
        = .ok ⟨5⟩
      ∧ countsAB "B" = 0 := by
  refine ⟨rfl, rfl⟩

/-- C7 (amended): the truncation failure that is ignored best-effort is the
one in `start_relay` (the `limit_log_file_lines` result is discarded, so
the call's outcome does not depend on it at all), whereas `read_log_file`
*surfaces* a failure of its pruning rewrite as an error instead of
returning the log text. -/
theorem truncation_error_handling :
    (∀ (host : String) (port : Nat) (dbPath : String) (env : Env)
        (st : GlobalState) (r r' : Option String),
        start_relay host port dbPath { env with limitWriteRes := r } st
          = start_relay host port dbPath { env with limitWriteRes := r' } st)
      ∧ ∀ (maxL : Option Nat) (st : GlobalState) (p content e : String),
          st.logFilePath = some p → 200 < (strLines content).length →
          read_log_file maxL st (some content) (some e)
            = (.error ("Failed to truncate log file: " ++ e), some content)
    := by
  constructor
  · intro host port dbPath env st r r'
    rfl
  · intro maxL st p content e hp h
    have hne : content ≠ "" := content_ne_empty_of_lines h
    simp only [read_log_file, hp, if_neg hne, if_pos h]

/-- Witness for C7 at concrete inputs. -/
theorem truncation_error_handling_witness :
    start_relay "127.0.0.1" 8081 "/data/db"
        { envAllOk with limitWriteRes := some "disk full" } initialState
      = start_relay "127.0.0.1" 8081 "/data/db"
        { envAllOk with limitWriteRes := none } initialState
    ∧ read_log_file none stLog (some content201) (some "disk full")
      = (.error "Failed to truncate log file: disk full", some content201)
    :=
  ⟨truncation_error_handling.1 "127.0.0.1" 8081 "/data/db" envAllOk
      initialState (some "disk full") none,
    truncation_error_handling.2 none stLog "/data/relay.log" content201
      "disk full" rfl (by decide)⟩

/-- Counterexample to C7 as stated: on a 201-line file whose pruning
rewrite fails, `read_log_file` returns the write error — it does not
ignore the failure and return the log text. -/
theorem truncation_error_handling_cex :
    (read_log_file none stLog (some content201) (some "disk full")).1
      = .error "Failed to truncate log file: disk full" := by
  decide

/-- C8 (amended): a `DEBUG` or `TRACE` event whose collected message is
nonempty produces no output from the formatter; but an event with no
fields (whose collected message is empty) is formatted generically
*before* the severity check and always produces a line, whatever its
level. -/
theorem format_event_characterization :
    (∀ level fields fieldsFmt time, collectMessage fields ≠ "" →
        (level = TracingLevel.debug ∨ level = TracingLevel.trace) →
        format_event level fields fieldsFmt time = "")
      ∧ ∀ level fieldsFmt time,
          format_event level [] fieldsFmt time = fieldsFmt ++ "\n" := by
  constructor
  · intro level fields fieldsFmt time hm hl
    unfold format_event
    rw [if_neg hm]
    rcases hl with rfl | rfl <;> rfl
  · intro level fieldsFmt time
    rfl

/-- Witness for C8: a DEBUG event carrying a message field produces no
output. -/
theorem format_event_characterization_witness :
    format_event .debug [("message", "hello")] "" (some (0, 0)) = "" :=
  format_event_characterization.1 .debug [("message", "hello")] ""
    (some (0, 0)) (by decide) (Or.inl rfl)

/-- Counterexample to C8 as stated: a DEBUG event with no fields at all
*does* produce output (the generic rendering plus a newline), because the
empty-message path runs before the severity check. -/
theorem format_event_characterization_cex :
    format_event .debug [] "fields" (some (0, 0)) = "fields\n"
      ∧ format_event .debug [] "fields" (some (0, 0)) ≠ "" := by
  refine ⟨by decide, by decide⟩

/-- C10: when no start call has ever been made (the runtime was never
created), `get_relay_stats` fails — with `"Runtime not initialized"` when
no shared handle exists and the database opens fine — and never returns a
count. -/
theorem get_relay_stats_requires_runtime (dbPath : String)
    (st : GlobalState) (counts : String → Nat)
    (dbOpenRes countRes : String → Option String)
    (hr : st.runtime = false) :
    (st.relayDatabase = none → dbOpenRes dbPath = none →
        get_relay_stats dbPath st counts dbOpenRes countRes
          = .error "Runtime not initialized")
      ∧ ∀ s, get_relay_stats dbPath st counts dbOpenRes countRes ≠ .ok s
    := by
  constructor
  · intro hdb ho
    simp only [get_relay_stats, hdb, ho, get_relay_stats_sync, hr]
    rfl
  · intro s hcontra
    unfold get_relay_stats at hcontra
    rcases hdb : st.relayDatabase with _ | handle <;> rw [hdb] at hcontra
    · rcases ho : dbOpenRes dbPath with _ | e <;> rw [ho] at hcontra
      · unfold get_relay_stats_sync at hcontra
        rw [hr] at hcontra
        rcases hc : countRes dbPath with _ | e' <;>
          simp [hc] at hcontra
      · simp at hcontra
    · unfold get_relay_stats_sync at hcontra
      rw [hr] at hcontra
      rcases hc : countRes handle with _ | e' <;> simp [hc] at hcontra

/-- Witness for C10 in the fresh-process state. -/
theorem get_relay_stats_requires_runtime_witness :
    get_relay_stats "/data/db" initialState (fun _ => 0) (fun _ => none)
      (fun _ => none) = .error "Runtime not initialized" :=
  (get_relay_stats_requires_runtime "/data/db" initialState (fun _ => 0)
    (fun _ => none) (fun _ => none) rfl).1 rfl rfl

end Relay

-- sanity examples (concrete evaluations of the line model)
example : Relay.parseIp "0.0.0.0" = some (.v4 0 0 0 0) := by decide
example : Relay.parseIp "127.0.0.1" = some (.v4 127 0 0 1) := by decide
example : Relay.parseIp "::" = some Relay.ipv6Wildcard := by decide
example : Relay.parseIp "not-an-ip" = none := by decide
example : Relay.parseIp "256.0.0.1" = none := by decide
example : Relay.parseIp "::1" = some (.v6 0 0 0 0 0 0 0 1) := by decide
example : Relay.ipToString (.v4 0 0 0 0) = "0.0.0.0" := by decide
example : Relay.ipToString Relay.ipv6Wildcard = "::" := by decide
example : Relay.parentDir "/data/db" = some "/data" := by decide
example : Relay.parentDir "db" = some "" := by decide
example : Relay.parentDir "/db" = some "/" := by decide
example : Relay.parentDir "" = none := by decide
example :
    Relay.relayUrlString Relay.ipv6Wildcard 8081 = "ws://[::]:8081" := by
  decide

-- sanity examples (concrete evaluations of the line model)
example : Relay.strLines "a\nb" = [['a'], ['b']] := by decide
example : Relay.strLines "a\r\nb\n" = [['a'], ['b']] := by decide
example : Relay.strLines "" = [] := by decide
example : Relay.strLines "\n" = [[]] := by decide
example : Relay.strLines "a\r" = [['a', '\r']] := by decide
example : Relay.natDecRepr 8081 = "8081" := by decide
example : Relay.strContains "ws://127.0.0.1:8081" "0.0.0.0" = false := by decide
example : Relay.strContains "ws://0.0.0.0:8081" "0.0.0.0" = true := by decide
